import Mathlib

/-!
Verification of the forecast-and-anomaly pipeline of the ObservoAI
repository (`predict.py`).  The Python source is shallowly embedded:
floating point values become rationals, pandas DataFrames become lists of
records, and the spots where the code can raise become `Except` results.
External effects (the Prometheus fetch and the Prophet model) enter the
model as explicit inputs.
-/

namespace ObservoAI

/-! ## String helpers (Python `in`, `str.lower`, slicing) -/

/-- Boolean test that `pat` occurs at the front of `l` (Python `startswith`). -/
def listLeads : List Char → List Char → Bool
  | [], _ => true
  | _ :: _, [] => false
  | a :: as, b :: bs => a == b && listLeads as bs

/-- Boolean substring test on character lists (Python `pat in hay`). -/
def listContains (pat : List Char) : List Char → Bool
  | [] => pat.isEmpty
  | c :: rest => listLeads pat (c :: rest) || listContains pat rest

/-- Python's `pat in hay` on strings. -/
def strContains (hay pat : String) : Bool :=
  listContains pat.toList hay.toList

/-- ASCII lower-casing of one character. -/
def charLower (c : Char) : Char :=
  if 'A' ≤ c ∧ c ≤ 'Z' then Char.ofNat (c.toNat + 32) else c

/-- Python's `str.lower()` (the strings involved are ASCII). -/
def strLower (s : String) : String :=
  String.mk (s.data.map charLower)

/-- The suffix of `hay` that follows the first occurrence of `pat`
(Python `hay[hay.find(pat) + len(pat):]`), or `none` when `pat` does not
occur. -/
def afterFirst (pat : List Char) : List Char → Option (List Char)
  | [] => if pat.isEmpty then some [] else none
  | c :: rest =>
    if listLeads pat (c :: rest) then some (List.drop pat.length (c :: rest))
    else afterFirst pat rest

/-- Extraction of the `service_name="..."` label value from a PromQL query,
as `detect_anomalies` does with `find` and slicing; `"unknown"` when the
label (or its closing quote) is missing or empty. -/
def service_api (pq : String) : String :=
  match afterFirst ("service_name=\"").toList pq.toList with
  | none => "unknown"
  | some rest =>
    let nm := rest.takeWhile (fun c => c ≠ '"')
    if 0 < nm.length ∧ nm.length < rest.length then String.mk nm else "unknown"

/-! ## Numeric helpers (Python `round`, `int`) -/

/-- Python's banker's rounding of a rational to an integer. -/
def roundHalfEven (q : ℚ) : ℤ :=
  let f : ℤ := ⌊q⌋
  let frac : ℚ := q - f
  if frac < 1/2 then f
  else if 1/2 < frac then f + 1
  else if f % 2 = 0 then f else f + 1

/-- Python's `round(q, n)`. -/
def roundTo (n : ℕ) (q : ℚ) : ℚ :=
  (roundHalfEven (q * 10 ^ n) : ℚ) / 10 ^ n

/-- Python's `int()` truncation toward zero on a rational. -/
def pyInt (q : ℚ) : ℤ :=
  if 0 ≤ q then ⌊q⌋ else ⌈q⌉

/-! ## Configuration constants (module level in `predict.py`) -/

def LATENCY_THRESHOLD_SECONDS : ℚ := 1/10
def LATENCY_THRESHOLD_MILLISECONDS : ℚ := LATENCY_THRESHOLD_SECONDS * 1000
def ERROR_RATE_THRESHOLD : ℚ := 1/10
def USER_LOAD_THRESHOLD : ℚ := 100
def TRANSACTION_RATE_THRESHOLD : ℚ := 50
def FORECAST_PERIODS : ℤ := 60

/-! ## Series normalization (`prepare_prophet_data`) -/

/-- Result of Python's `float(...)` conversion of one raw field: a
conversion error, a value that parses but is not finite, or a finite
rational. -/
inductive RawVal where
  | bad
  | nonfinite
  | num (q : ℚ)
deriving DecidableEq

/-- One raw Prometheus sample `[ts_epoch, val_str]`: the timestamp either
converts to an epoch instant or raises, the value converts per `RawVal`. -/
structure RawSample where
  ts : Option ℚ
  val : RawVal
deriving DecidableEq

/-- A cleaned sample: the `ds`/`y` row of the Prophet input frame. -/
structure Sample where
  ds : ℚ
  y : ℚ
deriving DecidableEq

/-- The body of the conversion loop in `prepare_prophet_data`: a sample
survives exactly when the timestamp converts and the value converts to a
finite number; otherwise it is skipped (logged, not raised). -/
def parseSample (s : RawSample) : Option Sample :=
  match s.ts, s.val with
  | some t, .num v => some ⟨t, v⟩
  | _, _ => none

/-- Stable insertion (ties keep the earlier-supplied sample first), the
building block of the timestamp sort. -/
def insertByDs (a : Sample) : List Sample → List Sample
  | [] => [a]
  | b :: rest => if a.ds ≤ b.ds then a :: b :: rest else b :: insertByDs a rest

/-- `df.sort_values(by='ds')`: stable ascending sort on the timestamp. -/
def sortByDs : List Sample → List Sample
  | [] => []
  | a :: rest => insertByDs a (sortByDs rest)

/-- `df.drop_duplicates(subset=['ds'], keep='last')`: a row is kept exactly
when no later row carries the same timestamp. -/
def dropDupKeepLast : List Sample → List Sample
  | [] => []
  | a :: rest =>
    if rest.any (fun b => b.ds == a.ds) then dropDupKeepLast rest
    else a :: dropDupKeepLast rest

/-- `prepare_prophet_data`: parse and filter the raw samples, fail (empty
frame) when fewer than 2 parsed points remain — the length check runs
before deduplication — then sort by timestamp and deduplicate keeping the
last row. -/
def prepare_prophet_data (raw : List RawSample) : List Sample :=
  if (raw.filterMap parseSample).length < 2 then []
  else dropDupKeepLast (sortByDs (raw.filterMap parseSample))

/-- The rows of `l` whose timestamp is `c` (order preserved). -/
def filterEq (c : ℚ) (l : List Sample) : List Sample :=
  l.filter (fun s => s.ds == c)

/-! ## Anomaly classification (`detect_anomalies`) -/

/-- One static category rule from the conditional chain in
`detect_anomalies`: effective threshold, the record's `type` label, and
the severity-tier multiplier used in the `warning`/`critical` test. -/
structure MetricRule where
  threshold : ℚ
  atype : String
  mult : ℚ
deriving DecidableEq

/-- The rule-selection chain of `detect_anomalies`, keyed on substring
matches over the lowered metric name and PromQL text.  The error-rate and
transaction-rate branches are additionally gated on the query being
rate-like (`rate(` or `_total`); a gated-out or unmatched point can never
fire. -/
def ruleFor (lname lquery : String) : Option MetricRule :=
  if strContains lname "latency" || strContains lname "duration" then
    if strContains lquery "milliseconds" then
      some { threshold := LATENCY_THRESHOLD_MILLISECONDS, atype := "High Latency (ms)", mult := 3/2 }
    else
      some { threshold := LATENCY_THRESHOLD_SECONDS, atype := "High Latency (s)", mult := 3/2 }
  else if strContains lname "error rate" || strContains lname "500 errors"
      || strContains lquery "early_warning_signals" then
    if strContains lquery "rate(" || strContains lquery "_total" then
      some { threshold := ERROR_RATE_THRESHOLD, atype := "High Error Rate", mult := 2 }
    else none
  else if strContains lname "active users" then
    some { threshold := USER_LOAD_THRESHOLD, atype := "High User Load", mult := 6/5 }
  else if strContains lname "transaction rate" || strContains lquery "transactions_total" then
    if strContains lquery "rate(" || strContains lquery "_total" then
      some { threshold := TRANSACTION_RATE_THRESHOLD, atype := "High Transaction Rate", mult := 3/2 }
    else none
  else none

/-- A forecast row as returned by Prophet (`ds`, `yhat`, `yhat_lower`,
`yhat_upper`), timestamps as epoch seconds. -/
structure Row where
  ds : ℚ
  yhat : ℚ
  yhat_lower : ℚ
  yhat_upper : ℚ
deriving DecidableEq

/-- A forecast row after the trend/acceleration enrichment step;
`ta = none` models the frame without `trend`/`acceleration` columns
(fewer than 3 rows). -/
structure FPoint where
  ds : ℚ
  yhat : ℚ
  yhat_lower : ℚ
  yhat_upper : ℚ
  ta : Option (ℚ × ℚ)
deriving DecidableEq

def mkFPoint (r : Row) (ta : Option (ℚ × ℚ)) : FPoint :=
  { ds := r.ds, yhat := r.yhat, yhat_lower := r.yhat_lower,
    yhat_upper := r.yhat_upper, ta := ta }

/-- The `confidence_level` expression of `detect_anomalies`. -/
def confidence_level (value lower upper : ℚ) : ℚ :=
  if value ≠ 0 then 1 - (upper - lower) / (2 * value) else 0

/-- The trend-based prediction label, as computed from the (already
rounded) `trend` and `acceleration` entries of the anomaly record. -/
def predLabel (t a : ℚ) : String :=
  if 0 < t ∧ 0 < a then "Increasing rapidly"
  else if 0 < t ∧ a ≤ 0 then "Increasing but slowing"
  else if t < 0 ∧ a < 0 then "Decreasing rapidly"
  else if t < 0 ∧ 0 ≤ a then "Decreasing but slowing"
  else "Stable"

/-- An emitted anomaly record (`base_anomaly` at append time).  Only fired
records are kept by the loop, and every fired record carries a threshold,
rounded trend/acceleration and a prediction. -/
structure Anomaly where
  timestamp : ℚ
  api : String
  metric_name : String
  forecast_value : ℚ
  lower_bound : ℚ
  upper_bound : ℚ
  confidence_level : ℚ
  threshold : ℚ
  atype : String
  severity : String
  trend : Option ℚ
  acceleration : Option ℚ
  prediction : String
deriving DecidableEq

/-- One iteration of the row loop of `detect_anomalies`.  `ok none`: the
point does not fire.  `ok (some a)`: the point fires and record `a` is
appended.  `error ()`: the point fires while the frame has no
trend/acceleration columns — the record's `trend` key is pre-initialised
to `None`, the `'trend' in base_anomaly` guard is therefore always true,
and Python raises `TypeError` on `None > 0`. -/
def classifyPoint (qn pq : String) (p : FPoint) : Except Unit (Option Anomaly) :=
  let value := p.yhat
  let conf := confidence_level value p.yhat_lower p.yhat_upper
  match ruleFor (strLower qn) (strLower pq) with
  | none => .ok none
  | some r =>
    if r.threshold < value then
      match p.ta with
      | none => .error ()
      | some (t, a) =>
        .ok (some {
          timestamp := p.ds
          api := service_api pq
          metric_name := qn
          forecast_value := roundTo 4 value
          lower_bound := roundTo 4 p.yhat_lower
          upper_bound := roundTo 4 p.yhat_upper
          confidence_level := roundTo 2 conf
          threshold := r.threshold
          atype := r.atype
          severity := if value < r.threshold * r.mult then "warning" else "critical"
          trend := some (roundTo 4 t)
          acceleration := some (roundTo 4 a)
          prediction := predLabel (roundTo 4 t) (roundTo 4 a) })
    else .ok none

/-- `np.diff`: successive differences. -/
def diffs : List ℚ → List ℚ
  | a :: b :: rest => (b - a) :: diffs (b :: rest)
  | _ => []

/-- The trend/acceleration enrichment at the top of `detect_anomalies`:
with at least 3 rows the first differences (padded with their last entry)
and second differences (padded twice) are attached; with fewer rows the
columns are absent. -/
def enrich (rows : List Row) : List FPoint :=
  if 3 ≤ rows.length then
    let ys := rows.map Row.yhat
    let tr := diffs ys
    let ac := diffs tr
    let trCol := tr ++ [tr.getLastD 0]
    let acCol := ac ++ [ac.getLastD 0, ac.getLastD 0]
    (rows.zip (trCol.zip acCol)).map (fun x => mkFPoint x.1 (some x.2))
  else rows.map (fun r => mkFPoint r none)

/-- The row loop of `detect_anomalies` over enriched points: fired records
are collected in order; a raised `TypeError` aborts the whole call. -/
def detectLoop (qn pq : String) : List FPoint → Except Unit (List Anomaly)
  | [] => .ok []
  | p :: rest =>
    match classifyPoint qn pq p with
    | .error e => .error e
    | .ok res =>
      match detectLoop qn pq rest with
      | .error e => .error e
      | .ok l => .ok (match res with | some a => a :: l | none => l)

/-- `detect_anomalies(forecast_df, query_name, promql_query)`. -/
def detect_anomalies (rows : List Row) (qn pq : String) : Except Unit (List Anomaly) :=
  detectLoop qn pq (enrich rows)

/-! ## Prometheus fetch (`fetch_prometheus_data`) -/

/-- The series-selection step of `fetch_prometheus_data`: an empty result
list yields no samples, otherwise only `result[0]["values"]` is returned
and every further series is dropped (with a log line). -/
def fetch_prometheus_extract (result : List (List RawSample)) : List RawSample :=
  match result with
  | [] => []
  | first :: _ => first

/-! ## Forecast horizon derivation (`/query`, step 3) -/

/-- The `periods_to_forecast` computation of `query_data`: when the
requested end lies strictly beyond the last historical timestamp the code
takes `max(FORECAST_PERIODS, max(1, ceil((end - last)/freq) + 5))`,
otherwise the default horizon.  `defaultHorizon` stands for the
env-configurable `FORECAST_PERIODS`, `freq` for the `FORECAST_FREQ`
offset in seconds. -/
def periods_to_forecast (defaultHorizon : ℤ) (endTime lastHist freq : ℚ) : ℤ :=
  if lastHist < endTime then
    let periods_needed : ℤ := max 1 (⌈(endTime - lastHist) / freq⌉ + 5)
    max defaultHorizon periods_needed
  else defaultHorizon

/-! ## `/query` response assembly (`query_data`, steps 4-5) -/

/-- One element of the SimpleJSON response: a named series, its
`[value, epoch_ms]` datapoints, and the optional `error` annotation. -/
structure GFSeries where
  target : String
  datapoints : List (ℚ × ℤ)
  error : Option String
deriving DecidableEq

/-- The observable result of the per-target pipeline stages feeding the
response assembly: the fetch returned nothing, the Prophet frame could
not be prepared, or forecasting ran and produced the rows `df` (empty
`df` = forecast generation failed) with `lastHist` the last historical
timestamp. -/
inductive StageOutcome where
  | fetchEmpty
  | prepFailed
  | forecast (lastHist : ℚ) (df : List Row)
deriving DecidableEq

/-- `clip(lower=0)` applied to the three value columns of a forecast row. -/
def clipRow (r : Row) : Row :=
  { ds := r.ds, yhat := max r.yhat 0, yhat_lower := max r.yhat_lower 0,
    yhat_upper := max r.yhat_upper 0 }

/-- The `future_forecast_df` slice: rows strictly after the last
historical timestamp and inside the requested `[start, end]` window. -/
def sliceWindow (lastHist startT endT : ℚ) (df : List Row) : List Row :=
  df.filter (fun r => decide (lastHist < r.ds) && decide (startT ≤ r.ds) && decide (r.ds ≤ endT))

/-- The non-negativity gate of `query_data`: the clip runs exactly when
the lowered target name mentions `rate` or `count`. -/
def isRateOrCount (name : String) : Bool :=
  strContains (strLower name) "rate" || strContains (strLower name) "count"

/-- The channels `query_data` appends for one target.  Fetch and
preparation failures contribute four error-annotated empty series
(including a `Historical` channel); a forecast outcome contributes the
three forecast channels — with error annotations when the forecast frame
is empty, and otherwise the sliced (and, for rate/count targets, clipped)
datapoints.  No `Historical` series with data is emitted on success. -/
def processTarget (startT endT : ℚ) (name : String) (o : StageOutcome) : List GFSeries :=
  match o with
  | .fetchEmpty =>
    [⟨name ++ " - Historical", [],
      some "No historical data available. Check Prometheus connection and query."⟩,
     ⟨name ++ " - Forecast", [], some "Cannot generate forecast without historical data."⟩,
     ⟨name ++ " - Forecast Lower", [], some "Cannot generate forecast without historical data."⟩,
     ⟨name ++ " - Forecast Upper", [], some "Cannot generate forecast without historical data."⟩]
  | .prepFailed =>
    [⟨name ++ " - Historical", [], some "Data preparation failed. Check data format and quality."⟩,
     ⟨name ++ " - Forecast", [], some "Cannot generate forecast with invalid data."⟩,
     ⟨name ++ " - Forecast Lower", [], some "Cannot generate forecast with invalid data."⟩,
     ⟨name ++ " - Forecast Upper", [], some "Cannot generate forecast with invalid data."⟩]
  | .forecast lastHist df =>
    if df.isEmpty then
      [⟨name ++ " - Forecast", [], some "Forecast generation failed. Check Prophet configuration."⟩,
       ⟨name ++ " - Forecast Lower", [], some "Forecast generation failed. Check Prophet configuration."⟩,
       ⟨name ++ " - Forecast Upper", [], some "Forecast generation failed. Check Prophet configuration."⟩]
    else
      let future := sliceWindow lastHist startT endT df
      let future2 := if isRateOrCount name then future.map clipRow else future
      [⟨name ++ " - Forecast", future2.map (fun r => (r.yhat, pyInt (r.ds * 1000))), none⟩,
       ⟨name ++ " - Forecast Lower", future2.map (fun r => (r.yhat_lower, pyInt (r.ds * 1000))), none⟩,
       ⟨name ++ " - Forecast Upper", future2.map (fun r => (r.yhat_upper, pyInt (r.ds * 1000))), none⟩]

/-- The response assembly of `query_data`: the per-target channel blocks
concatenated in request order; each target's block is a function of that
target's own stage outcome alone. -/
def query_data (startT endT : ℚ) (targets : List (String × StageOutcome)) : List GFSeries :=
  (targets.map (fun t => processTarget startT endT t.1 t.2)).flatten

/-- Modelled from the spec: the channel set the amended claim C6 promises
per target — forecast, lower and upper always, plus an error-annotated
`Historical` channel for fetch- and preparation-stage failures. -/
def expectedChannels (name : String) (o : StageOutcome) : List String :=
  match o with
  | .fetchEmpty =>
    [name ++ " - Historical", name ++ " - Forecast",
     name ++ " - Forecast Lower", name ++ " - Forecast Upper"]
  | .prepFailed =>
    [name ++ " - Historical", name ++ " - Forecast",
     name ++ " - Forecast Lower", name ++ " - Forecast Upper"]
  | .forecast _ _ =>
    [name ++ " - Forecast", name ++ " - Forecast Lower", name ++ " - Forecast Upper"]

/-! ## Annotation assembly (`query_annotations`) -/

/-- Fixed-4-decimal rendering of a rational, Python's `f"{x:.4f}"`. -/
def fmt4 (q : ℚ) : String :=
  let r := roundTo 4 q
  let sgn := if r < 0 then "-" else ""
  let scaled : ℕ := ((|r|) * 10000).num.toNat
  let fs := toString (scaled % 10000)
  sgn ++ toString (scaled / 10000) ++ "." ++
    String.mk (List.replicate (4 - fs.length) '0') ++ fs

/-- Plain rendering of a rational threshold, Python's `str()` (integral
thresholds print without a fractional part). -/
def pyStr (q : ℚ) : String :=
  if q.den = 1 then toString q.num
  else
    let sgn := if q < 0 then "-" else ""
    sgn ++ toString (|q|).floor.toNat ++ "." ++ toString (((|q| - (|q|).floor) * q.den).num.toNat)

/-- A Grafana annotation event (the `annotation` back-reference field of
the payload is omitted from the model). -/
structure AnnEvent where
  time : ℤ
  title : String
  tags : List String
  text : String
deriving DecidableEq

/-- The reshaping of one anomaly record into an annotation event in
`query_annotations`: millisecond epoch time, a title naming only the
category (`type`) of the anomaly, the service/metric/`"forecast"` tags,
and the text block quoting metric, API, value, threshold and bounds. -/
def mkAnnEvent (a : Anomaly) : AnnEvent :=
  { time := pyInt (a.timestamp * 1000)
    title := "Anomaly: " ++ a.atype
    tags := [a.api, a.metric_name, "forecast"]
    text := "Metric: " ++ a.metric_name ++ "\n" ++
            "API: " ++ a.api ++ "\n" ++
            "Forecasted Value: " ++ fmt4 a.forecast_value ++ "\n" ++
            "Threshold: " ++ pyStr a.threshold ++ "\n" ++
            "Confidence: (" ++ fmt4 a.lower_bound ++ " - " ++ fmt4 a.upper_bound ++ ")" }

/-- The annotation-path period computation: enough steps to cover the
window (ceiling of the gap over the frequency, plus the 5-step buffer),
and 0 — no forecast at all — when history already reaches the end. -/
def annPeriods (freq endT lastHist : ℚ) : ℤ :=
  if lastHist < endT then max 1 (⌈(endT - lastHist) / freq⌉ + 5) else 0

/-- The classification-and-reshaping tail of the `query_annotations`
loop: an empty forecast is skipped, the forecast is restricted to the
future rows inside the requested window, an empty restriction is
skipped, and otherwise each detected anomaly is reshaped into an
annotation event (a classifier `TypeError` aborts the request). -/
def annDetect (qn pq : String) (startT endT lastHist : ℚ) (fdf : List Row) :
    Except Unit (List AnnEvent) :=
  if fdf = [] then .ok []
  else
    if sliceWindow lastHist startT endT fdf = [] then .ok []
    else
      match detect_anomalies (sliceWindow lastHist startT endT fdf) qn pq with
      | .error e => .error e
      | .ok anoms => .ok (anoms.map mkAnnEvent)

/-- The forecast step of the `query_annotations` loop over a prepared
series: skip empty series, compute the period count from the last
historical timestamp, skip when no future periods are needed, otherwise
train (`train` stands for `train_and_forecast`) and classify. -/
def annWithSeries (train : List Sample → ℤ → List Row) (freq startT endT : ℚ)
    (qn pq : String) (df : List Sample) : Except Unit (List AnnEvent) :=
  if hdf : df = [] then .ok []
  else
    if 0 < annPeriods freq endT (df.getLast hdf).ds then
      annDetect qn pq startT endT (df.getLast hdf).ds
        (train df (annPeriods freq endT (df.getLast hdf).ds))
    else .ok []

/-- The per-metric body of the `query_annotations` loop.  `fetch` stands
for `fetch_prometheus_data`, called once per metric on the widened
window starting one day — 86400 s — before the requested start and
ending at the requested end.  Metrics with no samples or an unpreparable
frame are silently skipped. -/
def processAnnMetric (fetch : String → ℚ × ℚ → List RawSample)
    (train : List Sample → ℤ → List Row) (freq : ℚ)
    (startT endT : ℚ) (qn pq : String) : Except Unit (List AnnEvent) :=
  if fetch pq (startT - 86400, endT) = [] then .ok []
  else
    annWithSeries train freq startT endT qn pq
      (prepare_prophet_data (fetch pq (startT - 86400, endT)))

/-! ## Concrete example inputs (used by witnesses and counterexamples) -/

def pqE : String := "rate(bank_errors_total\x7bservice_name=\"transaction-service\"\x7d[5m])"
def qnE : String := "Transaction Service 500 Errors"
def pqU : String := "bank_bank_active_users\x7bservice_name=\"customer-api-service\"\x7d"
def qnU : String := "Customer API Active Users"

def pU : FPoint := ⟨0, 101, 90, 110, some (1, 1)⟩
def anU : Anomaly :=
  ⟨0, "customer-api-service", qnU, 101, 90, 110, 9/10, 100,
   "High User Load", "warning", some 1, some 1, "Increasing rapidly"⟩

def p4 : FPoint := ⟨0, 1/5, -2, 2, some (1, 1)⟩
def an4 : Anomaly :=
  ⟨0, "transaction-service", qnE, 1/5, -2, 2, -9, 1/10,
   "High Error Rate", "critical", some 1, some 1, "Increasing rapidly"⟩

def p8 : FPoint := ⟨0, 1/5, 0, 2/5, some (1/100000, 1/100000)⟩
def an8 : Anomaly :=
  ⟨0, "transaction-service", qnE, 1/5, 0, 2/5, 0, 1/10,
   "High Error Rate", "critical", some 0, some 0, "Stable"⟩

def p8b : FPoint := ⟨0, 1/5, 0, 2/5, some (1, -1)⟩
def an8b : Anomaly :=
  ⟨0, "transaction-service", qnE, 1/5, 0, 2/5, 0, 1/10,
   "High Error Rate", "critical", some 1, some (-1), "Increasing but slowing"⟩

def pW : FPoint := ⟨120, 3/20, 0, 1/5, some (1, 1)⟩
def anW : Anomaly :=
  ⟨120, "transaction-service", qnE, 3/20, 0, 1/5, 33/100, 1/10,
   "High Error Rate", "warning", some 1, some 1, "Increasing rapidly"⟩

def pC : FPoint := ⟨180, 1/2, 0, 1, some (1, 1)⟩
def anC : Anomaly :=
  ⟨180, "transaction-service", qnE, 1/2, 0, 1, 0, 1/10,
   "High Error Rate", "critical", some 1, some 1, "Increasing rapidly"⟩

def rowsShort : List Row := [⟨0, 1/5, 0, 2/5⟩, ⟨60, 1/5, 0, 2/5⟩]
def rowsLong : List Row := [⟨0, 1/5, 0, 2/5⟩, ⟨60, 1/5, 0, 2/5⟩, ⟨120, 1/5, 0, 2/5⟩]
def anL (ts : ℚ) : Anomaly :=
  ⟨ts, "transaction-service", qnE, 1/5, 0, 2/5, 0, 1/10,
   "High Error Rate", "critical", some 0, some 0, "Stable"⟩

def rawDup : List RawSample := [⟨some 0, .num 1⟩, ⟨some 0, .num 2⟩]
def rawMix : List RawSample :=
  [⟨some 60, .num 3⟩, ⟨none, .num 7⟩, ⟨some 0, .bad⟩, ⟨some 0, .nonfinite⟩,
   ⟨some 5, .num 1⟩, ⟨some 5, .num 2⟩]

def fetchE : String → ℚ × ℚ → List RawSample := fun _ _ => []
def trainE : List Sample → ℤ → List Row := fun _ _ => []

/-! ## Helper lemmas -/

theorem classifyPoint_eq (qn pq : String) (p : FPoint) (r : MetricRule)
    (hr : ruleFor (strLower qn) (strLower pq) = some r) :
    classifyPoint qn pq p =
      if r.threshold < p.yhat then
        match p.ta with
        | none => .error ()
        | some (t, a) =>
          .ok (some {
            timestamp := p.ds
            api := service_api pq
            metric_name := qn
            forecast_value := roundTo 4 p.yhat
            lower_bound := roundTo 4 p.yhat_lower
            upper_bound := roundTo 4 p.yhat_upper
            confidence_level := roundTo 2 (confidence_level p.yhat p.yhat_lower p.yhat_upper)
            threshold := r.threshold
            atype := r.atype
            severity := if p.yhat < r.threshold * r.mult then "warning" else "critical"
            trend := some (roundTo 4 t)
            acceleration := some (roundTo 4 a)
            prediction := predLabel (roundTo 4 t) (roundTo 4 a) })
      else .ok none := by
  unfold classifyPoint
  rw [hr]

theorem classifyPoint_none (qn pq : String) (p : FPoint)
    (hr : ruleFor (strLower qn) (strLower pq) = none) :
    classifyPoint qn pq p = .ok none := by
  unfold classifyPoint
  rw [hr]

theorem ruleFor_mem (lname lquery : String) (r : MetricRule)
    (hr : ruleFor lname lquery = some r) :
    r = ⟨LATENCY_THRESHOLD_MILLISECONDS, "High Latency (ms)", 3/2⟩
  ∨ r = ⟨LATENCY_THRESHOLD_SECONDS, "High Latency (s)", 3/2⟩
  ∨ r = ⟨ERROR_RATE_THRESHOLD, "High Error Rate", 2⟩
  ∨ r = ⟨USER_LOAD_THRESHOLD, "High User Load", 6/5⟩
  ∨ r = ⟨TRANSACTION_RATE_THRESHOLD, "High Transaction Rate", 3/2⟩ := by
  unfold ruleFor at hr
  split_ifs at hr <;> simp_all

/-! ## C1 -/

/-- C1: on the `/query` path, when the requested end time `E` lies
strictly beyond the last historical timestamp `T` the number of forecast
steps is `max(default_horizon, ceil((E - T)/F) + 5)`; when it does not,
it is the default horizon; and in either case the forecast horizon
`T + steps * F` reaches at least `E`. -/
theorem query_step_count (D : ℤ) (E T F : ℚ) (hF : 0 < F) :
    (T < E → periods_to_forecast D E T F = max D (⌈(E - T) / F⌉ + 5))
  ∧ (¬ T < E → periods_to_forecast D E T F = D)
  ∧ (0 ≤ D → E ≤ T + (periods_to_forecast D E T F : ℚ) * F) := by
  refine ⟨?_, ?_, ?_⟩
  · intro h
    unfold periods_to_forecast
    rw [if_pos h]
    have hpos : 0 < ⌈(E - T) / F⌉ := Int.ceil_pos.mpr (div_pos (sub_pos.mpr h) hF)
    show max D (max 1 (⌈(E - T) / F⌉ + 5)) = max D (⌈(E - T) / F⌉ + 5)
    omega
  · intro h
    unfold periods_to_forecast
    rw [if_neg h]
  · intro hD
    unfold periods_to_forecast
    split_ifs with h
    · have h1 : (E - T) / F ≤ (⌈(E - T) / F⌉ : ℚ) := Int.le_ceil _
      have h2 : ⌈(E - T) / F⌉ ≤ max D (max 1 (⌈(E - T) / F⌉ + 5)) := by omega
      have h2q : ((⌈(E - T) / F⌉ : ℤ) : ℚ) ≤ ((max D (max 1 (⌈(E - T) / F⌉ + 5)) : ℤ) : ℚ) := by
        exact_mod_cast h2
      have h3 : (E - T) / F ≤ ((max D (max 1 (⌈(E - T) / F⌉ + 5)) : ℤ) : ℚ) := le_trans h1 h2q
      have h4 := (div_le_iff₀ hF).mp h3
      linarith
    · have h0 : (0 : ℚ) ≤ (D : ℚ) * F := by
        have : (0 : ℚ) ≤ (D : ℚ) := by exact_mod_cast hD
        exact mul_nonneg this hF.le
      push_neg at h
      linarith

/-- C1 witness: default horizon 60, last history at 0, requested end 3600,
frequency 60 s: 65 steps are requested and the horizon covers the end. -/
theorem query_step_count_witness :
    (0 : ℚ) < 60 ∧ (0 : ℚ) < 3600 ∧ (0 : ℤ) ≤ 60
  ∧ periods_to_forecast 60 3600 0 60 = max 60 (⌈((3600 : ℚ) - 0) / 60⌉ + 5)
  ∧ (3600 : ℚ) ≤ 0 + (periods_to_forecast 60 3600 0 60 : ℚ) * 60 :=
  ⟨by norm_num, by norm_num, by decide,
   (query_step_count 60 3600 0 60 (by norm_num)).1 (by norm_num),
   (query_step_count 60 3600 0 60 (by norm_num)).2.2 (by decide)⟩

/-! ## C10 -/

/-- C10: when the monitoring backend returns more than one time series,
`fetch_prometheus_data` keeps only the first series' samples, so the
downstream pipeline (here: normalization) sees the first series alone. -/
theorem fetch_uses_first_series (s1 s2 : List RawSample) (rest : List (List RawSample)) :
    fetch_prometheus_extract (s1 :: s2 :: rest) = s1
  ∧ prepare_prophet_data (fetch_prometheus_extract (s1 :: s2 :: rest))
      = prepare_prophet_data s1 :=
  ⟨rfl, rfl⟩

/-! ## C5 -/

/-- C5: with fewer than 3 forecast points the frame has no
trend/acceleration columns, but the anomaly record's `trend` key is
pre-initialised to `None` so the presence guard passes and `None > 0`
raises `TypeError`: classification of a 2-point frame containing an
anomalous point aborts instead of emitting the anomaly without a trend
label.  With 3 points the same data classifies fine. -/
theorem detect_short_frame_raises :
    detect_anomalies rowsShort qnE pqE = .error ()
  ∧ detect_anomalies rowsLong qnE pqE = .ok [anL 0, anL 60, anL 120] := by
  have hr : ruleFor (strLower qnE) (strLower pqE)
      = some ⟨ERROR_RATE_THRESHOLD, "High Error Rate", 2⟩ := rfl
  have hapi : service_api pqE = "transaction-service" := rfl
  constructor
  · have he : enrich rowsShort = [⟨0, 1/5, 0, 2/5, none⟩, ⟨60, 1/5, 0, 2/5, none⟩] := by
      norm_num [enrich, rowsShort, mkFPoint]
    rw [detect_anomalies, he]
    simp only [detectLoop, classifyPoint_eq _ _ _ _ hr]
    norm_num [ERROR_RATE_THRESHOLD]
  · have he : enrich rowsLong =
        [⟨0, 1/5, 0, 2/5, some (0, 0)⟩, ⟨60, 1/5, 0, 2/5, some (0, 0)⟩,
         ⟨120, 1/5, 0, 2/5, some (0, 0)⟩] := by
      norm_num [enrich, rowsLong, diffs, mkFPoint]
    rw [detect_anomalies, he]
    simp only [detectLoop, classifyPoint_eq _ _ _ _ hr]
    norm_num [ERROR_RATE_THRESHOLD, anL, qnE, hapi, confidence_level, roundTo,
      roundHalfEven, predLabel]

/-! ## Concrete classifier evaluations (helpers for witnesses) -/

theorem classify_eval_U : classifyPoint qnU pqU pU = .ok (some anU) := by
  rw [classifyPoint_eq qnU pqU pU ⟨USER_LOAD_THRESHOLD, "High User Load", 6/5⟩ rfl]
  norm_num [pU, anU, qnU, USER_LOAD_THRESHOLD, confidence_level, roundTo, roundHalfEven,
    predLabel, show service_api pqU = "customer-api-service" from rfl]

theorem classify_eval_4 : classifyPoint qnE pqE p4 = .ok (some an4) := by
  rw [classifyPoint_eq qnE pqE p4 ⟨ERROR_RATE_THRESHOLD, "High Error Rate", 2⟩ rfl]
  norm_num [p4, an4, qnE, ERROR_RATE_THRESHOLD, confidence_level, roundTo, roundHalfEven,
    predLabel, show service_api pqE = "transaction-service" from rfl]

theorem classify_eval_8 : classifyPoint qnE pqE p8 = .ok (some an8) := by
  rw [classifyPoint_eq qnE pqE p8 ⟨ERROR_RATE_THRESHOLD, "High Error Rate", 2⟩ rfl]
  norm_num [p8, an8, qnE, ERROR_RATE_THRESHOLD, confidence_level, roundTo, roundHalfEven,
    predLabel, show service_api pqE = "transaction-service" from rfl]

theorem classify_eval_8b : classifyPoint qnE pqE p8b = .ok (some an8b) := by
  rw [classifyPoint_eq qnE pqE p8b ⟨ERROR_RATE_THRESHOLD, "High Error Rate", 2⟩ rfl]
  norm_num [p8b, an8b, qnE, ERROR_RATE_THRESHOLD, confidence_level, roundTo, roundHalfEven,
    predLabel, show service_api pqE = "transaction-service" from rfl]

theorem classify_eval_W : classifyPoint qnE pqE pW = .ok (some anW) := by
  rw [classifyPoint_eq qnE pqE pW ⟨ERROR_RATE_THRESHOLD, "High Error Rate", 2⟩ rfl]
  norm_num [pW, anW, qnE, ERROR_RATE_THRESHOLD, confidence_level, roundTo, roundHalfEven,
    predLabel, show service_api pqE = "transaction-service" from rfl]

theorem classify_eval_C : classifyPoint qnE pqE pC = .ok (some anC) := by
  rw [classifyPoint_eq qnE pqE pC ⟨ERROR_RATE_THRESHOLD, "High Error Rate", 2⟩ rfl]
  norm_num [pC, anC, qnE, ERROR_RATE_THRESHOLD, confidence_level, roundTo, roundHalfEven,
    predLabel, show service_api pqE = "transaction-service" from rfl]

/-! ## C2 -/

/-- C2: for a point that matches a category rule (including the rate gate
for the error-rate and transaction-rate categories), an anomaly is
emitted iff the point estimate strictly exceeds the effective threshold;
the emitted severity is "warning" iff the value is strictly below
threshold times the category's tier multiplier; and those multipliers
are 3/2 for both latency rules and transaction rate, 2 for error rate
and 6/5 for user load. -/
theorem anomaly_threshold_severity (qn pq : String) (p : FPoint) (r : MetricRule) (t a : ℚ)
    (hr : ruleFor (strLower qn) (strLower pq) = some r)
    (hta : p.ta = some (t, a)) :
    ((∃ an, classifyPoint qn pq p = .ok (some an)) ↔ r.threshold < p.yhat)
  ∧ (∀ an, classifyPoint qn pq p = .ok (some an) →
      an.severity = if p.yhat < r.threshold * r.mult then "warning" else "critical")
  ∧ ((r.atype = "High Latency (ms)" ∨ r.atype = "High Latency (s)"
        ∨ r.atype = "High Transaction Rate") → r.mult = 3/2)
  ∧ (r.atype = "High Error Rate" → r.mult = 2)
  ∧ (r.atype = "High User Load" → r.mult = 6/5) := by
  have hc := classifyPoint_eq qn pq p r hr
  rw [hta] at hc
  refine ⟨⟨?_, ?_⟩, ?_, ?_, ?_, ?_⟩
  · rintro ⟨an, han⟩
    by_contra hnot
    rw [if_neg hnot] at hc
    rw [hc] at han
    simp at han
  · intro hgt
    rw [if_pos hgt] at hc
    exact ⟨_, hc⟩
  · intro an han
    by_cases hgt : r.threshold < p.yhat
    · rw [if_pos hgt] at hc
      rw [hc] at han
      have h1 := Option.some.inj (Except.ok.inj han)
      rw [← h1]
    · rw [if_neg hgt] at hc
      rw [hc] at han
      simp at han
  · rcases ruleFor_mem _ _ _ hr with h|h|h|h|h <;> subst h <;> simp
  · rcases ruleFor_mem _ _ _ hr with h|h|h|h|h <;> subst h <;> simp
  · rcases ruleFor_mem _ _ _ hr with h|h|h|h|h <;> subst h <;> simp

/-- C2 witness: an active-users point at 101 (threshold 100, multiplier
6/5) is emitted with severity "warning". -/
theorem anomaly_threshold_severity_witness :
    classifyPoint qnU pqU pU = .ok (some anU)
  ∧ anU.severity = (if (101 : ℚ) < 100 * (6/5) then "warning" else "critical")
  ∧ anU.severity = "warning" :=
  ⟨classify_eval_U,
   (anomaly_threshold_severity qnU pqU pU ⟨USER_LOAD_THRESHOLD, "High User Load", 6/5⟩ 1 1
      rfl rfl).2.1 anU classify_eval_U,
   rfl⟩

/-! ## C4 -/

/-- C4: the reported confidence of every emitted anomaly record equals
`1 − (upper − lower)/(2 · point)` when the point estimate is nonzero and
0 when it is zero, rounded to two decimals, with no clamping to [0, 1]. -/
theorem confidence_formula (qn pq : String) (p : FPoint) (an : Anomaly)
    (h : classifyPoint qn pq p = .ok (some an)) :
    an.confidence_level
      = roundTo 2 (if p.yhat = 0 then 0
          else 1 - (p.yhat_upper - p.yhat_lower) / (2 * p.yhat)) := by
  rcases hrr : ruleFor (strLower qn) (strLower pq) with _ | r
  · rw [classifyPoint_none _ _ _ hrr] at h
    simp at h
  · have hc := classifyPoint_eq qn pq p r hrr
    by_cases hgt : r.threshold < p.yhat
    · rw [if_pos hgt] at hc
      rw [hc] at h
      rcases hta : p.ta with _ | ⟨t, a⟩ <;> rw [hta] at h
      · exact Except.noConfusion h
      · have h1 := Option.some.inj (Except.ok.inj h)
        rw [← h1]
        show roundTo 2 (confidence_level p.yhat p.yhat_lower p.yhat_upper) = _
        by_cases h0 : p.yhat = 0 <;> simp [confidence_level, h0]
    · rw [if_neg hgt] at hc
      rw [hc] at h
      exact Option.noConfusion (Except.ok.inj h)

/-- C4 witness: an error-rate anomaly at value 1/5 with bounds [−2, 2]
reports confidence −9: the formula value, unclamped below 0. -/
theorem confidence_formula_witness :
    classifyPoint qnE pqE p4 = .ok (some an4)
  ∧ an4.confidence_level
      = roundTo 2 (if p4.yhat = 0 then 0
          else 1 - (p4.yhat_upper - p4.yhat_lower) / (2 * p4.yhat))
  ∧ an4.confidence_level < 0 :=
  ⟨classify_eval_4, confidence_formula qnE pqE p4 an4 classify_eval_4, by norm_num [an4]⟩

/-! ## C8 -/

/-- C8 counterexample: an anomalous point whose raw trend and acceleration
are both 1/100000 (strictly positive) is labelled "Stable" rather than
"Increasing rapidly", because the label is computed from the
4-decimal-rounded values, which are 0. -/
theorem trend_label_cex :
    (0 : ℚ) < 1/100000
  ∧ p8.ta = some (1/100000, 1/100000)
  ∧ classifyPoint qnE pqE p8 = .ok (some an8)
  ∧ an8.prediction = "Stable"
  ∧ an8.prediction ≠ "Increasing rapidly" :=
  ⟨by norm_num, rfl, classify_eval_8, rfl, by simp [an8]⟩

/-- C8 (amended): for every emitted anomaly the prediction label follows
the claimed sign-combination table applied to the 4-decimal-rounded
trend and acceleration stored in the record (rounded values of 0 fall
through to "Stable"). -/
theorem trend_label_signs (qn pq : String) (p : FPoint) (t a : ℚ) (an : Anomaly)
    (hta : p.ta = some (t, a))
    (h : classifyPoint qn pq p = .ok (some an)) :
    (0 < roundTo 4 t → 0 < roundTo 4 a → an.prediction = "Increasing rapidly")
  ∧ (0 < roundTo 4 t → roundTo 4 a ≤ 0 → an.prediction = "Increasing but slowing")
  ∧ (roundTo 4 t < 0 → roundTo 4 a < 0 → an.prediction = "Decreasing rapidly")
  ∧ (roundTo 4 t < 0 → 0 ≤ roundTo 4 a → an.prediction = "Decreasing but slowing")
  ∧ (roundTo 4 t = 0 → an.prediction = "Stable") := by
  have hpred : an.prediction = predLabel (roundTo 4 t) (roundTo 4 a) := by
    rcases hrr : ruleFor (strLower qn) (strLower pq) with _ | r
    · rw [classifyPoint_none _ _ _ hrr] at h
      simp at h
    · have hc := classifyPoint_eq qn pq p r hrr
      rw [hta] at hc
      by_cases hgt : r.threshold < p.yhat
      · rw [if_pos hgt] at hc
        rw [hc] at h
        have h1 := Option.some.inj (Except.ok.inj h)
        rw [← h1]
      · rw [if_neg hgt] at hc
        rw [hc] at h
        exact Option.noConfusion (Except.ok.inj h)
  rw [hpred]
  refine ⟨fun h1 h2 => ?_, fun h1 h2 => ?_, fun h1 h2 => ?_, fun h1 h2 => ?_, fun h1 => ?_⟩
  · simp [predLabel, h1, h2]
  · simp [predLabel, h1, h2, not_lt.mpr h2]
  · simp [predLabel, h1, h2, lt_asymm h1]
  · simp [predLabel, h1, h2, lt_asymm h1, not_lt.mpr h2]
  · simp [predLabel, h1]

/-- C8 witness: the spec scenario — positive but shrinking trend (rounded
trend 1, rounded acceleration −1) on an anomalous point — is labelled
"Increasing but slowing". -/
theorem trend_label_signs_witness :
    classifyPoint qnE pqE p8b = .ok (some an8b)
  ∧ an8b.prediction = "Increasing but slowing" :=
  ⟨classify_eval_8b,
   (trend_label_signs qnE pqE p8b 1 (-1) an8b rfl classify_eval_8b).2.1
     (by norm_num [roundTo, roundHalfEven]) (by norm_num [roundTo, roundHalfEven])⟩

/-! ## C7 -/

/-- C7: for a rate- or count-category target name, every datapoint value
in every assembled channel (forecast, lower and upper) of that target is
non-negative: the three columns are clipped at zero before emission. -/
theorem rate_channels_nonneg (startT endT : ℚ) (name : String) (o : StageOutcome)
    (hn : isRateOrCount name = true) :
    ∀ s ∈ processTarget startT endT name o, ∀ d ∈ s.datapoints, 0 ≤ d.1 := by
  intro s hs d hd
  cases o with
  | fetchEmpty =>
    simp [processTarget] at hs
    rcases hs with h|h|h|h <;> subst h <;> simp at hd
  | prepFailed =>
    simp [processTarget] at hs
    rcases hs with h|h|h|h <;> subst h <;> simp at hd
  | forecast lastHist df =>
    by_cases hdf : df.isEmpty = true
    · simp [processTarget, hdf] at hs
      rcases hs with h|h|h <;> subst h <;> simp at hd
    · simp [processTarget, hdf, hn] at hs
      rcases hs with h|h|h <;> subst h <;>
        · simp only [List.map_map, List.mem_map] at hd
          obtain ⟨r', hr', rfl⟩ := hd
          exact le_max_right _ _

/-- C7 witness helper: a rate-named target with a negative forecast row is
emitted with all three channels clipped to zero. -/
theorem processTarget_eval_rate :
    processTarget 0 200 "Transaction Service Rate" (.forecast 0 [⟨100, -3, -5, -1⟩])
      = [⟨"Transaction Service Rate - Forecast", [(0, 100000)], none⟩,
         ⟨"Transaction Service Rate - Forecast Lower", [(0, 100000)], none⟩,
         ⟨"Transaction Service Rate - Forecast Upper", [(0, 100000)], none⟩] := by
  norm_num [processTarget, sliceWindow, clipRow, pyInt, max_eq_right,
    show isRateOrCount "Transaction Service Rate" = true from rfl]
  decide

/-- C7 witness: the clipped forecast channel of that target carries the
non-negative value 0. -/
theorem rate_channels_nonneg_witness :
    isRateOrCount "Transaction Service Rate" = true
  ∧ (0 : ℚ) ≤ (((0 : ℚ), (100000 : ℤ))).1 :=
  ⟨rfl,
   rate_channels_nonneg 0 200 "Transaction Service Rate" (.forecast 0 [⟨100, -3, -5, -1⟩]) rfl
     ⟨"Transaction Service Rate - Forecast", [(0, 100000)], none⟩
     (by rw [processTarget_eval_rate]; exact List.mem_cons_self _ _)
     ((0 : ℚ), (100000 : ℤ)) (List.mem_cons_self _ _)⟩

/-! ## C6 -/

/-- C6 counterexample: a target whose pipeline succeeds contributes only
three channels — forecast, lower and upper — and no history-echo
channel, so the full four-channel set is not always present. -/
theorem query_channels_cex :
    (processTarget 0 200 "Customer API Active Users"
        (.forecast 0 [⟨100, 1, 0, 2⟩])).map GFSeries.target
      = ["Customer API Active Users - Forecast",
         "Customer API Active Users - Forecast Lower",
         "Customer API Active Users - Forecast Upper"]
  ∧ (processTarget 0 200 "Customer API Active Users"
        (.forecast 0 [⟨100, 1, 0, 2⟩])).length = 3 := by
  constructor <;> rfl

/-- C6 (amended): each target contributes its own channel block —
independent of sibling targets — consisting of forecast, lower and upper
channels, preceded by an error-annotated `Historical` channel exactly on
fetch- and preparation-stage failures; every error-annotated channel
carries no datapoints. -/
theorem query_channels (startT endT : ℚ) (pre post : List (String × StageOutcome))
    (name : String) (o : StageOutcome) :
    query_data startT endT (pre ++ (name, o) :: post)
      = query_data startT endT pre ++ processTarget startT endT name o
          ++ query_data startT endT post
  ∧ (processTarget startT endT name o).map GFSeries.target = expectedChannels name o
  ∧ (∀ s ∈ processTarget startT endT name o, s.error ≠ none → s.datapoints = []) := by
  refine ⟨?_, ?_, ?_⟩
  · simp [query_data]
  · cases o with
    | fetchEmpty => rfl
    | prepFailed => rfl
    | forecast lastHist df =>
      by_cases hdf : df.isEmpty = true <;> simp [processTarget, expectedChannels, hdf]
  · intro s hs herr
    cases o with
    | fetchEmpty =>
      simp [processTarget] at hs
      rcases hs with h|h|h|h <;> subst h <;> rfl
    | prepFailed =>
      simp [processTarget] at hs
      rcases hs with h|h|h|h <;> subst h <;> rfl
    | forecast lastHist df =>
      by_cases hdf : df.isEmpty = true
      · simp [processTarget, hdf] at hs
        rcases hs with h|h|h <;> subst h <;> rfl
      · simp [processTarget, hdf] at hs
        rcases hs with h|h|h <;> subst h <;> exact absurd rfl herr

/-- C6 witness: a concrete two-target request decomposes into the two
independent channel blocks, and an error channel carries no data. -/
theorem query_channels_witness :
    query_data 0 1 ([("A", .fetchEmpty)] ++ ("B", .prepFailed) :: [])
      = query_data 0 1 [("A", .fetchEmpty)] ++ processTarget 0 1 "B" .prepFailed
          ++ query_data 0 1 []
  ∧ (⟨"B - Historical", [],
      some "Data preparation failed. Check data format and quality."⟩ : GFSeries).datapoints
      = [] :=
  ⟨(query_channels 0 1 [("A", .fetchEmpty)] [] "B" .prepFailed).1,
   (query_channels 0 1 [("A", .fetchEmpty)] [] "B" .prepFailed).2.2
     ⟨"B - Historical", [], some "Data preparation failed. Check data format and quality."⟩
     (by decide) (by decide)⟩

/-! ## C3: normalization lemmas -/

theorem mem_insertByDs {a x : Sample} {l : List Sample} :
    x ∈ insertByDs a l ↔ x = a ∨ x ∈ l := by
  induction l with
  | nil => simp [insertByDs]
  | cons b rest ih =>
    unfold insertByDs
    split_ifs with h
    · simp
    · simp [ih]
      tauto

theorem insertByDs_ne_nil (a : Sample) (l : List Sample) : insertByDs a l ≠ [] := by
  cases l with
  | nil => simp [insertByDs]
  | cons b rest =>
    unfold insertByDs
    split_ifs <;> simp

theorem pairwise_insertByDs {a : Sample} {l : List Sample}
    (hl : l.Pairwise (fun x y => x.ds ≤ y.ds)) :
    (insertByDs a l).Pairwise (fun x y => x.ds ≤ y.ds) := by
  induction l with
  | nil => simp [insertByDs]
  | cons b rest ih =>
    rw [List.pairwise_cons] at hl
    obtain ⟨hb, hrest⟩ := hl
    unfold insertByDs
    split_ifs with h
    · rw [List.pairwise_cons]
      refine ⟨?_, List.pairwise_cons.mpr ⟨hb, hrest⟩⟩
      intro y hy
      rcases List.mem_cons.mp hy with rfl | hy
      · exact h
      · exact le_trans h (hb y hy)
    · rw [List.pairwise_cons]
      refine ⟨?_, ih hrest⟩
      intro y hy
      rcases mem_insertByDs.mp hy with rfl | hy
      · exact le_of_lt (not_le.mp h)
      · exact hb y hy

theorem sortByDs_pairwise (l : List Sample) :
    (sortByDs l).Pairwise (fun x y => x.ds ≤ y.ds) := by
  induction l with
  | nil => simp [sortByDs]
  | cons a rest ih => exact pairwise_insertByDs ih

theorem mem_sortByDs {x : Sample} {l : List Sample} :
    x ∈ sortByDs l ↔ x ∈ l := by
  induction l with
  | nil => simp [sortByDs]
  | cons a rest ih =>
    show x ∈ insertByDs a (sortByDs rest) ↔ _
    rw [mem_insertByDs, ih]
    simp

theorem sortByDs_eq_nil {l : List Sample} : sortByDs l = [] ↔ l = [] := by
  cases l with
  | nil => simp [sortByDs]
  | cons a rest =>
    show insertByDs a (sortByDs rest) = [] ↔ _
    simp [insertByDs_ne_nil]

theorem mem_dropDupKeepLast {x : Sample} {l : List Sample}
    (h : x ∈ dropDupKeepLast l) : x ∈ l := by
  induction l with
  | nil => simp [dropDupKeepLast] at h
  | cons a rest ih =>
    unfold dropDupKeepLast at h
    split_ifs at h with hdup
    · exact List.mem_cons_of_mem a (ih h)
    · rcases List.mem_cons.mp h with rfl | h
      · exact List.mem_cons_self _ _
      · exact List.mem_cons_of_mem a (ih h)

theorem dropDupKeepLast_eq_nil {l : List Sample} :
    dropDupKeepLast l = [] ↔ l = [] := by
  induction l with
  | nil => simp [dropDupKeepLast]
  | cons a rest ih =>
    unfold dropDupKeepLast
    split_ifs with hdup
    · rw [ih]
      constructor
      · intro h
        subst h
        simp at hdup
      · intro h
        simp at h
    · simp

theorem dropDupKeepLast_pairwise_lt {l : List Sample}
    (h : l.Pairwise (fun x y => x.ds ≤ y.ds)) :
    (dropDupKeepLast l).Pairwise (fun x y => x.ds < y.ds) := by
  induction l with
  | nil => simp [dropDupKeepLast]
  | cons a rest ih =>
    rw [List.pairwise_cons] at h
    obtain ⟨ha, hrest⟩ := h
    unfold dropDupKeepLast
    split_ifs with hdup
    · exact ih hrest
    · rw [List.pairwise_cons]
      refine ⟨?_, ih hrest⟩
      intro y hy
      have hy' := mem_dropDupKeepLast hy
      refine lt_of_le_of_ne (ha y hy') ?_
      intro he
      exact hdup (List.any_eq_true.mpr ⟨y, hy', beq_iff_eq.mpr he.symm⟩)

theorem filterEq_cons (c : ℚ) (a : Sample) (l : List Sample) :
    filterEq c (a :: l) = if a.ds = c then a :: filterEq c l else filterEq c l := by
  unfold filterEq
  rw [List.filter_cons]
  by_cases h : a.ds = c <;> simp [h]

theorem filterEq_insertByDs (c : ℚ) (a : Sample) (l : List Sample) :
    filterEq c (insertByDs a l)
      = if a.ds = c then a :: filterEq c l else filterEq c l := by
  induction l with
  | nil =>
    show filterEq c [a] = _
    rw [filterEq_cons]
  | cons b rest ih =>
    by_cases h : a.ds ≤ b.ds
    · rw [show insertByDs a (b :: rest) = a :: b :: rest from by simp [insertByDs, h]]
      rw [filterEq_cons]
    · rw [show insertByDs a (b :: rest) = b :: insertByDs a rest from by simp [insertByDs, h]]
      rw [filterEq_cons, ih, filterEq_cons]
      by_cases hb : b.ds = c <;> by_cases hac : a.ds = c
      · exfalso
        have hlt : b.ds < a.ds := not_le.mp h
        rw [hb, hac] at hlt
        exact lt_irrefl c hlt
      · simp [hb, hac]
      · simp [hb, hac]
      · simp [hb, hac]

theorem filterEq_sortByDs (c : ℚ) (l : List Sample) :
    filterEq c (sortByDs l) = filterEq c l := by
  induction l with
  | nil => rfl
  | cons a rest ih =>
    show filterEq c (insertByDs a (sortByDs rest)) = _
    rw [filterEq_insertByDs, filterEq_cons, ih]

theorem filterEq_dropDupKeepLast (c : ℚ) (l : List Sample) :
    filterEq c (dropDupKeepLast l) = (filterEq c l).getLast?.toList := by
  induction l with
  | nil => rfl
  | cons a rest ih =>
    unfold dropDupKeepLast
    split_ifs with hdup
    · rw [ih, filterEq_cons]
      by_cases hac : a.ds = c
      · rw [if_pos hac]
        obtain ⟨b, hb, hbe⟩ := List.any_eq_true.mp hdup
        have hbds : b.ds = c := by rw [beq_iff_eq.mp hbe, hac]
        have hne : filterEq c rest ≠ [] := by
          intro hnil
          have hmem : b ∈ filterEq c rest := by
            unfold filterEq
            exact List.mem_filter.mpr ⟨hb, beq_iff_eq.mpr hbds⟩
          rw [hnil] at hmem
          exact List.not_mem_nil b hmem
        rcases hL : filterEq c rest with _ | ⟨x, xs⟩
        · exact absurd hL hne
        · rw [List.getLast?_cons_cons]
      · rw [if_neg hac]
    · rw [filterEq_cons, ih, filterEq_cons]
      by_cases hac : a.ds = c
      · have hnone : filterEq c rest = [] := by
          rcases hL : filterEq c rest with _ | ⟨x, xs⟩
          · rfl
          · exfalso
            have hx : x ∈ filterEq c rest := by rw [hL]; exact List.mem_cons_self _ _
            obtain ⟨hxm, hxd⟩ := List.mem_filter.mp hx
            apply hdup
            exact List.any_eq_true.mpr
              ⟨x, hxm, beq_iff_eq.mpr (by rw [beq_iff_eq.mp hxd, hac])⟩
        simp [hac, hnone]
      · simp [hac]

/-- C3 counterexample: two finite samples sharing timestamp 0 parse to two
points but only one distinct timestamp; the claim demands an empty
(insufficient-data) result, yet the code's length check runs before
deduplication and a one-row series is returned. -/
theorem prepare_dedup_cex :
    prepare_prophet_data rawDup = [⟨0, 2⟩]
  ∧ ((rawDup.filterMap parseSample).map Sample.ds).dedup.length = 1 := by
  constructor <;> decide

/-- C3 (amended): normalization drops unparsable and non-finite samples
without failing; it returns the empty (insufficient-data) result exactly
when fewer than 2 finite samples parse — counted before deduplication, so
duplicate-collapsing can leave a single-row series; otherwise the result
has strictly ascending, duplicate-free timestamps, every row comes from a
parsed input sample, and each timestamp keeps the last-supplied value. -/
theorem prepare_normalizes (raw : List RawSample) :
    (prepare_prophet_data raw = [] ↔ (raw.filterMap parseSample).length < 2)
  ∧ (prepare_prophet_data raw).Pairwise (fun x y => x.ds < y.ds)
  ∧ (∀ x ∈ prepare_prophet_data raw, ∃ s ∈ raw, parseSample s = some x)
  ∧ (¬ (raw.filterMap parseSample).length < 2 →
      ∀ c : ℚ, filterEq c (prepare_prophet_data raw)
        = (filterEq c (raw.filterMap parseSample)).getLast?.toList) := by
  refine ⟨?_, ?_, ?_, ?_⟩
  · unfold prepare_prophet_data
    split_ifs with hlen
    · simp [hlen]
    · simp only [hlen, iff_false]
      rw [← Ne, Ne, dropDupKeepLast_eq_nil, sortByDs_eq_nil]
      intro hnil
      rw [hnil] at hlen
      simp at hlen
  · unfold prepare_prophet_data
    split_ifs with hlen
    · simp
    · exact dropDupKeepLast_pairwise_lt (sortByDs_pairwise _)
  · intro x hx
    unfold prepare_prophet_data at hx
    split_ifs at hx with hlen
    · simp at hx
    · have hx2 := mem_sortByDs.mp (mem_dropDupKeepLast hx)
      exact List.mem_filterMap.mp hx2
  · intro hlen c
    unfold prepare_prophet_data
    rw [if_neg hlen, filterEq_dropDupKeepLast, filterEq_sortByDs]

/-- C3 witness: a raw list with a timestamp-conversion failure, a value
failure and a non-finite value, plus a duplicated timestamp, normalizes
to the deduplicated series keeping the later value at timestamp 5. -/
theorem prepare_normalizes_witness :
    ¬ ((rawMix.filterMap parseSample).length < 2)
  ∧ filterEq 5 (prepare_prophet_data rawMix)
      = (filterEq 5 (rawMix.filterMap parseSample)).getLast?.toList
  ∧ filterEq 5 (prepare_prophet_data rawMix) = [⟨5, 2⟩] := by
  exact ⟨by decide, (prepare_normalizes rawMix).2.2.2 (by decide) 5, by decide⟩

/-! ## C9: annotation lemmas -/

theorem classifyPoint_ts {qn pq : String} {p : FPoint} {an : Anomaly}
    (h : classifyPoint qn pq p = .ok (some an)) : an.timestamp = p.ds := by
  rcases hrr : ruleFor (strLower qn) (strLower pq) with _ | r
  · rw [classifyPoint_none _ _ _ hrr] at h
    exact Option.noConfusion (Except.ok.inj h)
  · have hc := classifyPoint_eq qn pq p r hrr
    by_cases hgt : r.threshold < p.yhat
    · rw [if_pos hgt] at hc
      rw [hc] at h
      rcases hta : p.ta with _ | ⟨t, a⟩ <;> rw [hta] at h
      · exact Except.noConfusion h
      · have h1 := Option.some.inj (Except.ok.inj h)
        rw [← h1]
    · rw [if_neg hgt] at hc
      rw [hc] at h
      exact Option.noConfusion (Except.ok.inj h)

theorem detectLoop_mem {qn pq : String} {pts : List FPoint} {l : List Anomaly}
    (h : detectLoop qn pq pts = .ok l) :
    ∀ an ∈ l, ∃ p ∈ pts, classifyPoint qn pq p = .ok (some an) := by
  induction pts generalizing l with
  | nil =>
    intro an han
    have h0 : ([] : List Anomaly) = l := Except.ok.inj h
    rw [← h0] at han
    simp at han
  | cons p rest ih =>
    intro an han
    unfold detectLoop at h
    rcases hc : classifyPoint qn pq p with e | res <;> rw [hc] at h
    · exact Except.noConfusion h
    · rcases hrec : detectLoop qn pq rest with e | l2 <;> rw [hrec] at h
      · exact Except.noConfusion h
      · rcases res with _ | a0
        · have h0 : l2 = l := Except.ok.inj h
          rw [← h0] at han
          obtain ⟨p', hp', hcp⟩ := ih hrec an han
          exact ⟨p', List.mem_cons_of_mem _ hp', hcp⟩
        · have h0 : a0 :: l2 = l := Except.ok.inj h
          rw [← h0] at han
          rcases List.mem_cons.mp han with rfl | han2
          · exact ⟨p, List.mem_cons_self _ _, hc⟩
          · obtain ⟨p', hp', hcp⟩ := ih hrec an han2
            exact ⟨p', List.mem_cons_of_mem _ hp', hcp⟩

theorem enrich_ds {p : FPoint} {rows : List Row} (h : p ∈ enrich rows) :
    ∃ r ∈ rows, p.ds = r.ds := by
  unfold enrich at h
  split_ifs at h with h3
  · obtain ⟨⟨x1, x2⟩, hx, rfl⟩ := List.mem_map.mp h
    exact ⟨x1, (List.of_mem_zip hx).1, rfl⟩
  · obtain ⟨r, hr, rfl⟩ := List.mem_map.mp h
    exact ⟨r, hr, rfl⟩

theorem sliceWindow_mem {lastHist startT endT : ℚ} {df : List Row} {r : Row}
    (h : r ∈ sliceWindow lastHist startT endT df) :
    r ∈ df ∧ lastHist < r.ds ∧ startT ≤ r.ds ∧ r.ds ≤ endT := by
  obtain ⟨h1, h2⟩ := List.mem_filter.mp h
  simp only [Bool.and_eq_true, decide_eq_true_eq] at h2
  exact ⟨h1, h2.1.1, h2.1.2, h2.2⟩

theorem pyInt_mono {q r : ℚ} (h : q ≤ r) : pyInt q ≤ pyInt r := by
  unfold pyInt
  split_ifs with hq hr2 hr2
  · exact Int.floor_le_floor h
  · exact absurd (le_trans hq h) hr2
  · have ha : ⌈q⌉ ≤ 0 := Int.ceil_le.mpr (by exact_mod_cast le_of_lt (not_le.mp hq))
    have hb : 0 ≤ ⌊r⌋ := Int.floor_nonneg.mpr hr2
    omega
  · exact Int.ceil_le_ceil h

theorem annDetect_mem {qn pq : String} {startT endT lastHist : ℚ} {fdf : List Row}
    {evs : List AnnEvent} (h : annDetect qn pq startT endT lastHist fdf = .ok evs) :
    ∀ e ∈ evs, ∃ an : Anomaly,
      e = mkAnnEvent an ∧ startT ≤ an.timestamp ∧ an.timestamp ≤ endT := by
  intro e he
  unfold annDetect at h
  split_ifs at h with h1 h2
  · rw [← Except.ok.inj h] at he
    simp at he
  · rw [← Except.ok.inj h] at he
    simp at he
  · rcases hdet : detect_anomalies (sliceWindow lastHist startT endT fdf) qn pq
        with err | anoms <;> rw [hdet] at h
    · exact Except.noConfusion h
    · rw [← Except.ok.inj h] at he
      obtain ⟨an, han, rfl⟩ := List.mem_map.mp he
      have hdet2 : detectLoop qn pq (enrich (sliceWindow lastHist startT endT fdf))
          = .ok anoms := hdet
      obtain ⟨p, hp, hcp⟩ := detectLoop_mem hdet2 an han
      have hts := classifyPoint_ts hcp
      obtain ⟨r, hr, hpr⟩ := enrich_ds hp
      obtain ⟨_, _, hs1, hs2⟩ := sliceWindow_mem hr
      refine ⟨an, rfl, ?_, ?_⟩
      · rw [hts, hpr]
        exact hs1
      · rw [hts, hpr]
        exact hs2

/-- C9 counterexample: two anomalies of the same category but different
severities ("warning" and "critical") are reshaped into annotation
events with the same title, which names only the category — the title is
not built from category and severity. -/
theorem ann_title_cex :
    classifyPoint qnE pqE pW = .ok (some anW)
  ∧ classifyPoint qnE pqE pC = .ok (some anC)
  ∧ anW.severity = "warning" ∧ anC.severity = "critical"
  ∧ (mkAnnEvent anW).title = (mkAnnEvent anC).title
  ∧ (mkAnnEvent anC).title = "Anomaly: High Error Rate"
  ∧ strContains (mkAnnEvent anC).title "critical" = false :=
  ⟨classify_eval_W, classify_eval_C, rfl, rfl, rfl, rfl, rfl⟩

/-- C9 (amended): the per-metric annotation pipeline fetches history from
one day (86400 s) before the requested start through the requested end
(its result depends on the fetch only at that window); every emitted
event comes from an anomaly of a forecast point inside `[start, end]`,
carries its millisecond epoch time (inside the window), a title built
from the anomaly's category alone, and the service/metric/"forecast"
tags; metrics with no samples or an unpreparable series are silently
skipped. -/
theorem ann_pipeline (fetch fetch2 : String → ℚ × ℚ → List RawSample)
    (train : List Sample → ℤ → List Row) (freq : ℚ) (startT endT : ℚ) (qn pq : String) :
    (fetch pq (startT - 86400, endT) = fetch2 pq (startT - 86400, endT) →
      processAnnMetric fetch train freq startT endT qn pq
        = processAnnMetric fetch2 train freq startT endT qn pq)
  ∧ (∀ evs, processAnnMetric fetch train freq startT endT qn pq = .ok evs →
      ∀ e ∈ evs, ∃ an : Anomaly,
        e = mkAnnEvent an ∧ startT ≤ an.timestamp ∧ an.timestamp ≤ endT
        ∧ e.time = pyInt (an.timestamp * 1000)
        ∧ pyInt (startT * 1000) ≤ e.time ∧ e.time ≤ pyInt (endT * 1000)
        ∧ e.title = "Anomaly: " ++ an.atype
        ∧ e.tags = [an.api, an.metric_name, "forecast"])
  ∧ (fetch pq (startT - 86400, endT) = [] →
      processAnnMetric fetch train freq startT endT qn pq = .ok [])
  ∧ (prepare_prophet_data (fetch pq (startT - 86400, endT)) = [] →
      processAnnMetric fetch train freq startT endT qn pq = .ok []) := by
  refine ⟨?_, ?_, ?_, ?_⟩
  · intro h
    unfold processAnnMetric
    rw [h]
  · intro evs h e he
    unfold processAnnMetric at h
    split_ifs at h with h1
    · rw [← Except.ok.inj h] at he
      simp at he
    · unfold annWithSeries at h
      split_ifs at h with h2 h3
      · rw [← Except.ok.inj h] at he
        simp at he
      · obtain ⟨an, he1, hs1, hs2⟩ := annDetect_mem h e he
        refine ⟨an, he1, hs1, hs2, ?_, ?_, ?_, ?_, ?_⟩
        · rw [he1]
          rfl
        · rw [he1]
          show pyInt (startT * 1000) ≤ pyInt (an.timestamp * 1000)
          exact pyInt_mono (mul_le_mul_of_nonneg_right hs1 (by norm_num))
        · rw [he1]
          show pyInt (an.timestamp * 1000) ≤ pyInt (endT * 1000)
          exact pyInt_mono (mul_le_mul_of_nonneg_right hs2 (by norm_num))
        · rw [he1]
          rfl
        · rw [he1]
          rfl
      · rw [← Except.ok.inj h] at he
        simp at he
  · intro h
    unfold processAnnMetric
    rw [h]
    simp
  · intro hp
    unfold processAnnMetric
    split_ifs with h1
    · rfl
    · unfold annWithSeries
      rw [dif_pos hp]

/-- C9 witness: a metric whose widened-window fetch returns no samples is
silently skipped: the pipeline yields no events and no error. -/
theorem ann_pipeline_witness :
    fetchE pqE (100 - 86400, 300) = []
  ∧ processAnnMetric fetchE trainE 60 100 300 qnE pqE = .ok [] :=
  ⟨rfl, (ann_pipeline fetchE fetchE trainE 60 100 300 qnE pqE).2.2.1 rfl⟩

end ObservoAI
